import Mathlib

/-!
Verification development for the OptiCSS optimizer orchestrator
(`src/unnamed/part_000`, the `Optimizer` class and its helpers).

Modelling conventions:
- The external postcss parser and stringifier are collaborators outside the
  repository; they are passed as parameters `parse : String → Except E R` and
  `toCss : R → String`, where `R` is the abstract rule-tree type.
- JavaScript in-place mutation of shared objects (the style mapping, the
  selector cache, the rule trees held inside the file objects) is modelled by
  explicit state passing: a pass returns the updated ledger, the updated cache
  and the new rule-tree content that it wrote into the file object; the
  orchestrator writes the content back into the same slot of the file list,
  mirroring mutation of the array elements in place.
- Promise sequencing is modelled by sequential composition: `Promise.all` over
  the per-file promises that share one ledger and one cache becomes a
  left-to-right fold threading that shared state, its rejection on the first
  parse failure becomes `Except.error`.
- Runs are instrumented with an event trace recording each pass construction,
  each `parseCss` completion and each pass invocation together with the ledger
  and cache state flowing in and out of it; the trace is how temporal claims
  about the run are stated. Source maps are not modelled.
-/

namespace Opticss

/-- A JavaScript option value as it occurs in the options object: a boolean
flag or a string-valued setting (e.g. an identifier-rewrite mode). -/
inductive OptionValue where
  | bool (b : Bool)
  | str (s : String)
deriving DecidableEq, Repr

/-- JavaScript truthiness of an option value, as tested by
`if (!this.options.enabled)` and `if (this.options[opt])`. -/
def OptionValue.truthy : OptionValue → Bool
  | .bool b => b
  | .str s => !(s == "")

/-- A JavaScript options object, modelled as an association list of keys to
option values (a `Partial<OptiCSSOptions>` can mention any subset of keys). -/
abbrev Options := List (String × OptionValue)

/-- Property lookup on an options object. -/
def lookupOpt (opts : Options) (k : String) : Option OptionValue :=
  match opts with
  | [] => none
  | (k', v) :: rest => if k' == k then some v else lookupOpt rest k

/-- Truthiness of a property of an options object; an absent property reads
as `undefined`, which is falsy. -/
def optTruthy (opts : Options) (k : String) : Bool :=
  match lookupOpt opts k with
  | some v => v.truthy
  | none => false

/-- Property assignment `obj[k] = v`: overwrites an existing key in place,
appends a new key at the end. -/
def setKey (obj : Options) (k : String) (v : OptionValue) : Options :=
  match obj with
  | [] => [(k, v)]
  | (k', v') :: rest => if k' == k then (k', v) :: rest else (k', v') :: setKey rest k v

/-- `Object.assign(target, src)`: copies every own property of `src` onto
`target`, later writes overriding earlier ones. -/
def objAssign (target : Options) (src : Options) : Options :=
  src.foldl (fun acc kv => setKey acc kv.1 kv.2) target

/-- `Object.assign({}, DEFAULT_OPTIONS, options)` is computed by the
constructor; `mergedOptions` names that expression. -/
def mergedOptions (defaults options : Options) : Options :=
  objAssign (objAssign [] defaults) options

/-- Modelled from the spec: `DEFAULT_OPTIONS` lives in the missing module
`OpticssOptions`; per the spec the recognized keys are a global `enabled`
flag and an identifier-rewrite mode, plus one entry per optimization kind
(the concrete kinds are supplied by the `optimizations` registry). -/
def DEFAULT_OPTIONS : Options :=
  [("enabled", .bool true), ("rewriteIdents", .str "all")]

/-- Modelled from the spec: the `StyleMapping` ledger from the missing module
`StyleMapping`, holding the identifier-rewrite relation (source file,
original identifier, replacement identifier) and the removal/merge relation
(provenance, survivor). It is created empty. -/
structure StyleMapping where
  rewrites : List (String × String × String)
  removals : List (String × String)
deriving DecidableEq, Repr

/-- A freshly constructed, empty style mapping (`new StyleMapping()`). -/
def StyleMapping.new : StyleMapping := ⟨[], []⟩

/-- Modelled from the spec: one memoized entry of structural facts about a
selector, from the missing module `query`. -/
structure SelectorCacheEntry where
  selectorText : String
deriving DecidableEq, Repr

/-- Modelled from the spec: the selector cache from the missing module
`query`, keyed by selector text. It is created empty. -/
structure SelectorCache where
  entries : List (String × SelectorCacheEntry)
deriving DecidableEq, Repr

/-- A freshly constructed, empty selector cache (`new SelectorCache()`). -/
def SelectorCache.new : SelectorCache := ⟨[]⟩

/-- Modelled from the spec: an opaque, read-only template fact base from the
missing module `TemplateAnalysis`. -/
structure TemplateAnalysis where
  facts : List String
deriving DecidableEq, Repr

/-- A CSS source as handed to the optimizer: raw text or a pre-parsed rule
tree, an optional filename and an optional input source map. -/
structure CssFile (R : Type) where
  content : Sum String R
  filename : Option String
  sourceMap : Option String

/-- A parsed stylesheet: the rule-tree handle plus the originating filename. -/
structure ParsedCssFile (R : Type) where
  content : R
  filename : Option String

/-- A single-file pass capability: receives the shared ledger, one parsed
file, the analyses and the shared cache; returns the updated ledger, the
rule tree it wrote into the file in place, and the updated cache. -/
abbrev SingleFileOptimization (R : Type) :=
  StyleMapping → ParsedCssFile R → List TemplateAnalysis → SelectorCache →
    StyleMapping × R × SelectorCache

/-- A cross-file pass capability: receives the shared ledger, the full ordered
file list, the analyses and the shared cache; returns the updated ledger, the
rule trees it wrote slot-wise into the file objects, and the updated cache. -/
abbrev MultiFileOptimization (R : Type) :=
  StyleMapping → List (ParsedCssFile R) → List TemplateAnalysis → SelectorCache →
    StyleMapping × List R × SelectorCache

/-- An optimization pass object; it may implement either capability shape or
both (a missing method is `none`). -/
structure Optimization (R : Type) where
  optimizeSingleFile : Option (SingleFileOptimization R)
  optimizeAllFiles : Option (MultiFileOptimization R)

/-- Type-guard `optimizesSingleFiles`: does the pass carry an
`optimizeSingleFile` method? -/
def optimizesSingleFiles {R : Type} (o : Optimization R) : Bool :=
  o.optimizeSingleFile.isSome

/-- Type-guard `optimizesAllFiles`: does the pass carry an
`optimizeAllFiles` method? -/
def optimizesAllFiles {R : Type} (o : Optimization R) : Bool :=
  o.optimizeAllFiles.isSome

/-- The `optimizations` registry from the missing module `optimizations`:
an ordered dictionary from optimization kind name to its constructor. -/
abbrev OptimizationRegistry (R : Type) :=
  List (String × (Options → Optimization R))

/-- The kind of an instrumentation event: a pass construction (in the
`Optimizer` constructor), the completion of `parseCss` for the file at a
given source index, a single-file pass invocation (pass index, file index),
or a cross-file pass invocation (pass index). -/
inductive EventKind where
  | construct (kindName : String)
  | parseFile (fileIdx : Nat)
  | singlePass (passIdx : Nat) (fileIdx : Nat)
  | multiPass (passIdx : Nat)
deriving DecidableEq, Repr

/-- One instrumentation event: its kind plus the style-mapping and cache
state flowing into and out of the step. Construction and parse events do not
touch the shared state, so their in and out states coincide (construction
events, which precede any run, carry the empty ledgers). -/
structure Event where
  kind : EventKind
  smIn : StyleMapping
  smOut : StyleMapping
  cacheIn : SelectorCache
  cacheOut : SelectorCache
deriving DecidableEq, Repr

/-- The output slot of an `OptimizationResult`: the concatenated CSS text and
the output filename (the merged source map is not modelled). -/
structure OptimizationOutput where
  content : String
  filename : String
deriving DecidableEq, Repr

/-- The result of `optimize()`: the assembled output plus the style mapping. -/
structure OptimizationResult (R : Type) where
  output : OptimizationOutput
  styleMapping : StyleMapping

/-- The `Optimizer` object: sources and analyses accumulated by `addSource`
and `addAnalysis`, the merged effective options, and the two pass groups
filled by the constructor. -/
structure Optimizer (R : Type) where
  sources : List (CssFile R)
  analyses : List TemplateAnalysis
  options : Options
  singleFileOptimizations : List (SingleFileOptimization R)
  multiFileOptimizations : List (MultiFileOptimization R)

/-- The constructor's pass-instantiation loop:
`Object.keys(optimizations).forEach(...)` — for each registry entry whose
option is truthy in the merged options, construct the pass once and push it
into the single-file and/or cross-file group according to the type guards,
recording one construction event. -/
def instantiatePasses {R : Type} (opts : Options) :
    OptimizationRegistry R →
      List (SingleFileOptimization R) × List (MultiFileOptimization R) × List Event
  | [] => ([], [], [])
  | (name, ctor) :: rest =>
    if optTruthy opts name then
      let optimization := ctor opts
      let prev := instantiatePasses opts rest
      let ss2 := match optimization.optimizeSingleFile with
        | some f => f :: prev.1
        | none => prev.1
      let ms2 := match optimization.optimizeAllFiles with
        | some f => f :: prev.2.1
        | none => prev.2.1
      (ss2, ms2,
        ⟨.construct name, StyleMapping.new, StyleMapping.new,
          SelectorCache.new, SelectorCache.new⟩ :: prev.2.2)
    else
      instantiatePasses opts rest

/-- The `Optimizer` constructor: merge the supplied options over the defaults
with `Object.assign({}, DEFAULT_OPTIONS, options)`, return early with empty
pass groups when the merged `enabled` is falsy, otherwise instantiate the
enabled passes. The second component is the trace of construction events. -/
def Optimizer.construct {R : Type} (registry : OptimizationRegistry R)
    (options : Options) : Optimizer R × List Event :=
  let opts := mergedOptions DEFAULT_OPTIONS options
  if !(optTruthy opts "enabled") then
    (⟨[], [], opts, [], []⟩, [])
  else
    let groups := instantiatePasses opts registry
    (⟨[], [], opts, groups.1, groups.2.1⟩, groups.2.2)

/-- `new Optimizer(options)`, discarding the instrumentation trace. -/
def Optimizer.new {R : Type} (registry : OptimizationRegistry R)
    (options : Options) : Optimizer R :=
  (Optimizer.construct registry options).1

/-- `addSource`: push a CSS source onto the source list. -/
def Optimizer.addSource {R : Type} (o : Optimizer R) (file : CssFile R) :
    Optimizer R :=
  { o with sources := o.sources ++ [file] }

/-- `addAnalysis`: push a template analysis onto the analysis list. -/
def Optimizer.addAnalysis {R : Type} (o : Optimizer R)
    (analysis : TemplateAnalysis) : Optimizer R :=
  { o with analyses := o.analyses ++ [analysis] }

/-- Add a list of sources in order via `addSource`. -/
def Optimizer.addSources {R : Type} (o : Optimizer R)
    (files : List (CssFile R)) : Optimizer R :=
  files.foldl Optimizer.addSource o

/-- `parseCss`: a raw-string source is processed by the external parser and
wrapped into a `ParsedCssFile` carrying the source's filename; a source whose
content is already a parsed handle is returned as-is
(`Promise.resolve(<ParsedCssFile>file)`). -/
def parseCss {R E : Type} (parse : String → Except E R) (file : CssFile R) :
    Except E (ParsedCssFile R) :=
  match file.content with
  | Sum.inl text => (parse text).map fun root => ⟨root, file.filename⟩
  | Sum.inr parsed => .ok ⟨parsed, file.filename⟩

/-- The `forEach` loop of `Optimizer.optimizeSingleFile`: run each
single-file pass in group order against one file, threading the shared
ledger and cache and writing each returned rule tree back into the file
object; `passIdx` numbers the passes for the trace. -/
def runSinglePasses {R : Type} (analyses : List TemplateAnalysis)
    (fileIdx : Nat) :
    List (SingleFileOptimization R) → Nat → StyleMapping → ParsedCssFile R →
      SelectorCache → StyleMapping × ParsedCssFile R × SelectorCache × List Event
  | [], _, sm, file, cache => (sm, file, cache, [])
  | pass :: rest, passIdx, sm, file, cache =>
    let step := pass sm file analyses cache
    let file2 : ParsedCssFile R := ⟨step.2.1, file.filename⟩
    let next := runSinglePasses analyses fileIdx rest (passIdx + 1) step.1 file2 step.2.2
    (next.1, next.2.1, next.2.2.1,
      ⟨.singlePass passIdx fileIdx, sm, step.1, cache, step.2.2⟩ :: next.2.2.2)

/-- `Optimizer.optimizeSingleFile`: parse one source (recording a parse
event), then run every single-file pass against the parsed file. -/
def Optimizer.optimizeSingleFile {R E : Type} (o : Optimizer R)
    (parse : String → Except E R) (styleMapping : StyleMapping)
    (source : CssFile R) (cache : SelectorCache) (fileIdx : Nat) :
    Except E (StyleMapping × ParsedCssFile R × SelectorCache × List Event) :=
  (parseCss parse source).map fun file =>
    let r := runSinglePasses o.analyses fileIdx o.singleFileOptimizations 0
      styleMapping file cache
    (r.1, r.2.1, r.2.2.1,
      ⟨.parseFile fileIdx, styleMapping, styleMapping, cache, cache⟩ :: r.2.2.2)

/-- Write the rule trees returned by a cross-file pass back into the file
objects slot by slot (in-place mutation of the array elements); slots the
pass did not write keep their previous content. -/
def writeBack {R : Type} :
    List (ParsedCssFile R) → List R → List (ParsedCssFile R)
  | [], _ => []
  | files, [] => files
  | file :: files, root :: roots => ⟨root, file.filename⟩ :: writeBack files roots

/-- The `forEach` loop of `Optimizer.optimizeAllFiles`: run each cross-file
pass in group order over the full file list, threading the shared ledger and
cache. -/
def runMultiPasses {R : Type} (analyses : List TemplateAnalysis) :
    List (MultiFileOptimization R) → Nat → StyleMapping →
      List (ParsedCssFile R) → SelectorCache →
      StyleMapping × List (ParsedCssFile R) × SelectorCache × List Event
  | [], _, sm, files, cache => (sm, files, cache, [])
  | pass :: rest, passIdx, sm, files, cache =>
    let step := pass sm files analyses cache
    let files2 := writeBack files step.2.1
    let next := runMultiPasses analyses rest (passIdx + 1) step.1 files2 step.2.2
    (next.1, next.2.1, next.2.2.1,
      ⟨.multiPass passIdx, sm, step.1, cache, step.2.2⟩ :: next.2.2.2)

/-- `Optimizer.optimizeAllFiles`: run every cross-file pass over the files. -/
def Optimizer.optimizeAllFiles {R : Type} (o : Optimizer R)
    (styleMapping : StyleMapping) (files : List (ParsedCssFile R))
    (cache : SelectorCache) :
    StyleMapping × List (ParsedCssFile R) × SelectorCache × List Event :=
  runMultiPasses o.analyses o.multiFileOptimizations 0 styleMapping files cache

/-- Phase 1 of `optimize()`: `Promise.all(this.sources.map(...))` — process
each source with `optimizeSingleFile`, sharing one ledger and one cache
across all files (modelled as a sequential left-to-right fold); the first
parse failure rejects the whole phase. Result files are collected in source
order, as `Promise.all` does. -/
def Optimizer.runPhase1 {R E : Type} (o : Optimizer R)
    (parse : String → Except E R) :
    List (CssFile R) → Nat → StyleMapping → SelectorCache →
      Except E (StyleMapping × List (ParsedCssFile R) × SelectorCache × List Event)
  | [], _, sm, cache => .ok (sm, [], cache, [])
  | source :: rest, fileIdx, sm, cache =>
    match o.optimizeSingleFile parse sm source cache fileIdx with
    | .error e => .error e
    | .ok r =>
      match o.runPhase1 parse rest (fileIdx + 1) r.1 r.2.2.1 with
      | .error e => .error e
      | .ok r2 => .ok (r2.1, r.2.1 :: r2.2.1, r2.2.2.1, r.2.2.2 ++ r2.2.2.2)

/-- `Optimizer.optimize`: create a fresh empty style mapping and selector
cache, run phase 1 over all sources, then phase 2 over the collected files,
then serialize each file's rule tree and concatenate the chunks in order
with the `"\n"` separator (`new Concat(true, outputFilename, "\n")`),
returning the output and the style mapping together with the run's trace. -/
def Optimizer.optimize {R E : Type} (o : Optimizer R)
    (parse : String → Except E R) (toCss : R → String)
    (outputFilename : String) :
    Except E (OptimizationResult R × List Event) :=
  let styleMapping := StyleMapping.new
  let cache := SelectorCache.new
  match o.runPhase1 parse o.sources 0 styleMapping cache with
  | .error e => .error e
  | .ok r =>
    let r2 := o.optimizeAllFiles r.1 r.2.1 r.2.2.1
    let chunks := r2.2.1.map fun file => toCss file.content
    .ok ({ output := { content := String.intercalate "\n" chunks,
                       filename := outputFilename },
           styleMapping := r2.1 },
         r.2.2.2 ++ r2.2.2.2)

/-! ### Helpers for stating the claims -/

/-- Did an `Except` computation succeed? -/
def exceptIsOk {E A : Type} : Except E A → Bool
  | .ok _ => true
  | .error _ => false

/-- The instrumentation trace of a finished run (empty for a failed run). -/
def extractTrace {R E : Type} :
    Except E (OptimizationResult R × List Event) → List Event
  | .ok p => p.2
  | .error _ => []

/-- The concatenated output content of a finished run. -/
def extractContent {R E : Type} :
    Except E (OptimizationResult R × List Event) → String
  | .ok p => p.1.output.content
  | .error _ => ""

/-- The style mapping returned by a finished run. -/
def extractSM {R E : Type} :
    Except E (OptimizationResult R × List Event) → StyleMapping
  | .ok p => p.1.styleMapping
  | .error _ => StyleMapping.new

/-- Is this a cross-file pass invocation event? -/
def EventKind.isMultiPass : EventKind → Bool
  | .multiPass _ => true
  | _ => false

/-- Is this a phase-1 event (a parse completion or a single-file pass
invocation)? -/
def EventKind.isPhase1 : EventKind → Bool
  | .parseFile _ => true
  | .singlePass _ _ => true
  | _ => false

/-- Is this a pass-construction event? -/
def EventKind.isConstruct : EventKind → Bool
  | .construct _ => true
  | _ => false

/-- The event kind at position `i` of a trace (a construction marker when
out of range, which no optimize-run event ever is). -/
def kindAt (evs : List Event) (i : Nat) : EventKind :=
  match evs.get? i with
  | some ev => ev.kind
  | none => .construct "outOfRange"

/-- The kind names recorded by the pass-construction events of a trace. -/
def constructedKinds (evs : List Event) : List String :=
  evs.filterMap fun ev =>
    match ev.kind with
    | .construct n => some n
    | _ => none

/-- Does a trace thread the shared ledger and cache, starting from the given
states: each event's incoming state is exactly the previous event's outgoing
state? -/
def chainedFrom : StyleMapping → SelectorCache → List Event → Bool
  | _, _, [] => true
  | sm, cache, ev :: rest =>
    (ev.smIn == sm) && (ev.cacheIn == cache) && chainedFrom ev.smOut ev.cacheOut rest

/-- The ledger state after a trace, starting from the given state. -/
def finalSm (sm : StyleMapping) : List Event → StyleMapping
  | [] => sm
  | ev :: rest => finalSm ev.smOut rest

/-- The cache state after a trace, starting from the given state. -/
def finalCache (cache : SelectorCache) : List Event → SelectorCache
  | [] => cache
  | ev :: rest => finalCache ev.cacheOut rest

/-- The original text of a source as fed to the optimizer: the raw string,
or the serialization of a pre-parsed handle. -/
def sourceText {R : Type} (toCss : R → String) (f : CssFile R) : String :=
  match f.content with
  | Sum.inl s => s
  | Sum.inr t => toCss t

/-- The passes the constructor instantiates: one per registry entry whose
option is truthy in the merged options, in registry order. -/
def enabledPasses {R : Type} (registry : OptimizationRegistry R)
    (opts : Options) : List (Optimization R) :=
  registry.filterMap fun kv =>
    if optTruthy opts kv.1 then some (kv.2 opts) else none

/-- The expected phase-1 event kinds of a run over `numFiles` sources
(numbered from `i0`) with `numPasses` single-file passes: for each file in
order, its parse completion followed by each single-file pass in group
order. -/
def phase1KindsFrom (i0 numFiles numPasses : Nat) : List EventKind :=
  match numFiles with
  | 0 => []
  | n + 1 =>
    (EventKind.parseFile i0 ::
      (List.range numPasses).map fun j => EventKind.singlePass j i0) ++
      phase1KindsFrom (i0 + 1) n numPasses

/-- The expected phase-1 event kinds of a whole run (files numbered from 0). -/
def phase1Kinds (numFiles numPasses : Nat) : List EventKind :=
  phase1KindsFrom 0 numFiles numPasses

/-- The expected phase-2 event kinds: each cross-file pass once, in group
order. -/
def multiKinds (numPasses : Nat) : List EventKind :=
  (List.range numPasses).map .multiPass

/-! ### Lemmas about options objects -/

theorem objAssign_cons (t : Options) (kv : String × OptionValue)
    (rest : Options) :
    objAssign t (kv :: rest) = objAssign (setKey t kv.1 kv.2) rest := rfl

theorem lookupOpt_eq_none_iff (l : Options) (k : String) :
    lookupOpt l k = none ↔ k ∉ l.map Prod.fst := by
  induction l with
  | nil => simp [lookupOpt]
  | cons kv rest ih =>
    obtain ⟨k', v⟩ := kv
    by_cases h : k' = k
    · subst h
      simp [lookupOpt]
    · simp [lookupOpt, h, Ne.symm h, ih]

theorem lookupOpt_setKey (t : Options) (k : String) (v : OptionValue)
    (k' : String) :
    lookupOpt (setKey t k v) k' = if k' = k then some v else lookupOpt t k' := by
  induction t with
  | nil =>
    by_cases h : k' = k
    · simp [setKey, lookupOpt, h]
    · simp [setKey, lookupOpt, h, Ne.symm h]
  | cons kv rest ih =>
    obtain ⟨k0, v0⟩ := kv
    by_cases h0 : k0 = k
    · subst h0
      by_cases h : k' = k0
      · simp [setKey, lookupOpt, h]
      · simp [setKey, lookupOpt, h, Ne.symm h]
    · by_cases h : k' = k0
      · subst h
        simp [setKey, lookupOpt, h0]
      · simp [setKey, lookupOpt, h0, Ne.symm h, h, ih]

theorem lookupOpt_objAssign_none (s : Options) :
    ∀ (t : Options) (k : String), lookupOpt s k = none →
      lookupOpt (objAssign t s) k = lookupOpt t k := by
  induction s with
  | nil => intro t k _; rfl
  | cons kv rest ih =>
    intro t k hk
    obtain ⟨k0, v0⟩ := kv
    rw [objAssign_cons]
    by_cases h : k0 = k
    · exfalso
      simp [lookupOpt, h] at hk
    · have hk' : lookupOpt rest k = none := by simpa [lookupOpt, h] using hk
      rw [ih (setKey t k0 v0) k hk', lookupOpt_setKey,
        if_neg (fun hh : k = k0 => h hh.symm)]

theorem lookupOpt_objAssign_some (s : Options) :
    ∀ (t : Options) (k : String) (v : OptionValue),
      (s.map Prod.fst).Nodup → lookupOpt s k = some v →
      lookupOpt (objAssign t s) k = some v := by
  induction s with
  | nil =>
    intro t k v _ hk
    simp [lookupOpt] at hk
  | cons kv rest ih =>
    intro t k v hnd hk
    obtain ⟨k0, v0⟩ := kv
    simp only [List.map_cons, List.nodup_cons] at hnd
    obtain ⟨hnotin, hnd'⟩ := hnd
    rw [objAssign_cons]
    by_cases h : k0 = k
    · subst h
      have hv : v0 = v := by simpa [lookupOpt] using hk
      subst hv
      have hrest : lookupOpt rest k0 = none :=
        (lookupOpt_eq_none_iff rest k0).mpr hnotin
      rw [lookupOpt_objAssign_none rest (setKey t k0 v0) k0 hrest,
        lookupOpt_setKey]
      simp
    · have hk' : lookupOpt rest k = some v := by simpa [lookupOpt, h] using hk
      exact ih (setKey t k0 v0) k v hnd' hk'

theorem optimizer_new_options {R : Type} (registry : OptimizationRegistry R)
    (opts : Options) :
    (Optimizer.new registry opts).options = mergedOptions DEFAULT_OPTIONS opts := by
  unfold Optimizer.new Optimizer.construct
  dsimp only
  split <;> rfl

theorem optimizer_new_sources {R : Type} (registry : OptimizationRegistry R)
    (opts : Options) :
    (Optimizer.new registry opts).sources = [] := by
  unfold Optimizer.new Optimizer.construct
  dsimp only
  split <;> rfl

theorem addSources_eq {R : Type} :
    ∀ (files : List (CssFile R)) (o : Optimizer R),
      o.addSources files = { o with sources := o.sources ++ files } := by
  intro files
  induction files with
  | nil =>
    intro o
    simp [Optimizer.addSources]
  | cons f rest ih =>
    intro o
    show (o.addSource f).addSources rest = _
    rw [ih]
    simp [Optimizer.addSource]

/-! ### Success and failure of the pipeline -/

theorem exceptIsOk_iff {E A : Type} (x : Except E A) :
    exceptIsOk x = true ↔ ∃ a, x = .ok a := by
  cases x <;> simp [exceptIsOk]

theorem optimizeSingleFile_ok {R E : Type} (o : Optimizer R)
    (parse : String → Except E R) (sm : StyleMapping) (source : CssFile R)
    (cache : SelectorCache) (fileIdx : Nat) (pf : ParsedCssFile R)
    (hpf : parseCss parse source = Except.ok pf) :
    o.optimizeSingleFile parse sm source cache fileIdx = Except.ok
      ((runSinglePasses o.analyses fileIdx o.singleFileOptimizations 0
          sm pf cache).1,
       (runSinglePasses o.analyses fileIdx o.singleFileOptimizations 0
          sm pf cache).2.1,
       (runSinglePasses o.analyses fileIdx o.singleFileOptimizations 0
          sm pf cache).2.2.1,
       ⟨.parseFile fileIdx, sm, sm, cache, cache⟩ ::
         (runSinglePasses o.analyses fileIdx o.singleFileOptimizations 0
            sm pf cache).2.2.2) := by
  unfold Optimizer.optimizeSingleFile
  rw [hpf]
  rfl

theorem optimizeSingleFile_error {R E : Type} (o : Optimizer R)
    (parse : String → Except E R) (sm : StyleMapping) (source : CssFile R)
    (cache : SelectorCache) (fileIdx : Nat) (e : E)
    (hpf : parseCss parse source = Except.error e) :
    o.optimizeSingleFile parse sm source cache fileIdx = Except.error e := by
  unfold Optimizer.optimizeSingleFile
  rw [hpf]
  rfl

theorem runPhase1_cons_ok {R E : Type} (o : Optimizer R)
    (parse : String → Except E R) (g : CssFile R) (rest : List (CssFile R))
    (i0 : Nat) (sm : StyleMapping) (cache : SelectorCache)
    (r : StyleMapping × ParsedCssFile R × SelectorCache × List Event)
    (hs : o.optimizeSingleFile parse sm g cache i0 = Except.ok r) :
    o.runPhase1 parse (g :: rest) i0 sm cache =
      match o.runPhase1 parse rest (i0 + 1) r.1 r.2.2.1 with
      | .error e => .error e
      | .ok r2 => .ok (r2.1, r.2.1 :: r2.2.1, r2.2.2.1, r.2.2.2 ++ r2.2.2.2) := by
  simp only [Optimizer.runPhase1, hs]

theorem runPhase1_cons_error {R E : Type} (o : Optimizer R)
    (parse : String → Except E R) (g : CssFile R) (rest : List (CssFile R))
    (i0 : Nat) (sm : StyleMapping) (cache : SelectorCache) (e : E)
    (hs : o.optimizeSingleFile parse sm g cache i0 = Except.error e) :
    o.runPhase1 parse (g :: rest) i0 sm cache = Except.error e := by
  simp only [Optimizer.runPhase1, hs]

/-- The assembly step of `optimize()` applied to the phase-2 result: the
serialized chunks joined by the separator, plus the final style mapping. -/
def assembleResult {R : Type} (toCss : R → String) (outputFilename : String)
    (r2 : StyleMapping × List (ParsedCssFile R) × SelectorCache × List Event) :
    OptimizationResult R where
  output :=
    { content := String.intercalate "\n" (r2.2.1.map fun f => toCss f.content),
      filename := outputFilename }
  styleMapping := r2.1

theorem optimize_of_phase1_ok {R E : Type} (o : Optimizer R)
    (parse : String → Except E R) (toCss : R → String) (outputFilename : String)
    (r : StyleMapping × List (ParsedCssFile R) × SelectorCache × List Event)
    (h : o.runPhase1 parse o.sources 0 StyleMapping.new SelectorCache.new
      = Except.ok r) :
    o.optimize parse toCss outputFilename = Except.ok
      (assembleResult toCss outputFilename (o.optimizeAllFiles r.1 r.2.1 r.2.2.1),
       r.2.2.2 ++ (o.optimizeAllFiles r.1 r.2.1 r.2.2.1).2.2.2) := by
  simp only [Optimizer.optimize, h]
  rfl

theorem optimize_of_phase1_error {R E : Type} (o : Optimizer R)
    (parse : String → Except E R) (toCss : R → String) (outputFilename : String)
    (e : E)
    (h : o.runPhase1 parse o.sources 0 StyleMapping.new SelectorCache.new
      = Except.error e) :
    o.optimize parse toCss outputFilename = Except.error e := by
  simp only [Optimizer.optimize, h]

theorem runPhase1_ok {R E : Type} (o : Optimizer R)
    (parse : String → Except E R) :
    ∀ (srcs : List (CssFile R)) (i0 : Nat) (sm : StyleMapping)
      (cache : SelectorCache),
      (∀ g ∈ srcs, exceptIsOk (parseCss parse g) = true) →
      exceptIsOk (o.runPhase1 parse srcs i0 sm cache) = true := by
  intro srcs
  induction srcs with
  | nil =>
    intro i0 sm cache _
    rfl
  | cons g rest ih =>
    intro i0 sm cache hall
    obtain ⟨pf, hpf⟩ :=
      (exceptIsOk_iff _).mp (hall g (List.mem_cons_self g rest))
    have hrest : ∀ g' ∈ rest, exceptIsOk (parseCss parse g') = true :=
      fun g' hm => hall g' (List.mem_cons_of_mem _ hm)
    have hstep := optimizeSingleFile_ok o parse sm g cache i0 pf hpf
    generalize hrs :
      runSinglePasses o.analyses i0 o.singleFileOptimizations 0 sm pf cache
        = rs at hstep
    rw [runPhase1_cons_ok o parse g rest i0 sm cache _ hstep]
    dsimp only
    cases hr : o.runPhase1 parse rest (i0 + 1) rs.1 rs.2.2.1 with
    | error e =>
      have hok := ih (i0 + 1) rs.1 rs.2.2.1 hrest
      rw [hr] at hok
      simp [exceptIsOk] at hok
    | ok r2 => rfl

theorem optimizeAllFiles_no_passes {R : Type} (o : Optimizer R)
    (h : o.multiFileOptimizations = []) (sm : StyleMapping)
    (files : List (ParsedCssFile R)) (cache : SelectorCache) :
    o.optimizeAllFiles sm files cache = (sm, files, cache, []) := by
  unfold Optimizer.optimizeAllFiles
  rw [h]
  rfl

theorem optimizer_disabled {R : Type} (registry : OptimizationRegistry R)
    (opts : Options)
    (h : optTruthy (mergedOptions DEFAULT_OPTIONS opts) "enabled" = false) :
    Optimizer.construct registry opts
      = (⟨[], [], mergedOptions DEFAULT_OPTIONS opts, [], []⟩, []) := by
  simp [Optimizer.construct, h]

theorem merged_enabled_falsy (opts : Options) (v : OptionValue)
    (hnd : (opts.map Prod.fst).Nodup)
    (he : lookupOpt opts "enabled" = some v) (hv : v.truthy = false) :
    optTruthy (mergedOptions DEFAULT_OPTIONS opts) "enabled" = false := by
  unfold optTruthy mergedOptions
  rw [lookupOpt_objAssign_some opts _ _ v hnd he]
  exact hv

theorem runPhase1_no_passes {R E : Type} (o : Optimizer R)
    (parse : String → Except E R) (toCss : R → String)
    (h0 : o.singleFileOptimizations = [])
    (hrt : ∀ s t, parse s = Except.ok t → toCss t = s) :
    ∀ (srcs : List (CssFile R)) (i0 : Nat) (sm : StyleMapping)
      (cache : SelectorCache),
      (∀ g ∈ srcs, ∃ s, g.content = Sum.inl s ∧ exceptIsOk (parse s) = true) →
      ∃ files evs,
        o.runPhase1 parse srcs i0 sm cache = Except.ok (sm, files, cache, evs) ∧
        files.map (fun f => toCss f.content) = srcs.map (sourceText toCss) := by
  intro srcs
  induction srcs with
  | nil =>
    intro i0 sm cache _
    exact ⟨[], [], rfl, rfl⟩
  | cons g rest ih =>
    intro i0 sm cache hall
    obtain ⟨s, hgs, hps⟩ := hall g (List.mem_cons_self g rest)
    obtain ⟨t, ht⟩ := (exceptIsOk_iff _).mp hps
    have hpf : parseCss parse g = Except.ok ⟨t, g.filename⟩ := by
      simp [parseCss, hgs, ht, Except.map]
    have hstep := optimizeSingleFile_ok o parse sm g cache i0 _ hpf
    rw [h0] at hstep
    dsimp only [runSinglePasses] at hstep
    obtain ⟨files, evs, hrec, hmap⟩ :=
      ih (i0 + 1) sm cache (fun g' hm => hall g' (List.mem_cons_of_mem _ hm))
    refine ⟨⟨t, g.filename⟩ :: files,
      ⟨.parseFile i0, sm, sm, cache, cache⟩ :: evs, ?_, ?_⟩
    · rw [runPhase1_cons_ok o parse g rest i0 sm cache _ hstep]
      dsimp only
      rw [hrec]
      rfl
    · simp [hmap, sourceText, hgs, hrt s t ht]

/-! ### The kinds of events a run records -/

theorem runSinglePasses_kinds {R : Type} (analyses : List TemplateAnalysis)
    (fileIdx : Nat) :
    ∀ (passes : List (SingleFileOptimization R)) (p0 : Nat) (sm : StyleMapping)
      (file : ParsedCssFile R) (cache : SelectorCache),
      (runSinglePasses analyses fileIdx passes p0 sm file cache).2.2.2.map
          Event.kind
        = (List.range passes.length).map fun j =>
            EventKind.singlePass (p0 + j) fileIdx := by
  intro passes
  induction passes with
  | nil =>
    intro p0 sm file cache
    rfl
  | cons pass rest ih =>
    intro p0 sm file cache
    dsimp only [runSinglePasses]
    rw [List.map_cons, ih (p0 + 1), List.length_cons, List.range_succ_eq_map,
      List.map_cons, List.map_map]
    congr 1
    apply List.map_eq_map_iff.mpr
    intro j _
    simp only [Function.comp_apply]
    congr 1
    omega

theorem runMultiPasses_kinds {R : Type} (analyses : List TemplateAnalysis) :
    ∀ (passes : List (MultiFileOptimization R)) (p0 : Nat) (sm : StyleMapping)
      (files : List (ParsedCssFile R)) (cache : SelectorCache),
      (runMultiPasses analyses passes p0 sm files cache).2.2.2.map Event.kind
        = (List.range passes.length).map fun j =>
            EventKind.multiPass (p0 + j) := by
  intro passes
  induction passes with
  | nil =>
    intro p0 sm files cache
    rfl
  | cons pass rest ih =>
    intro p0 sm files cache
    dsimp only [runMultiPasses]
    rw [List.map_cons, ih (p0 + 1), List.length_cons, List.range_succ_eq_map,
      List.map_cons, List.map_map]
    congr 1
    apply List.map_eq_map_iff.mpr
    intro j _
    simp only [Function.comp_apply]
    congr 1
    omega

theorem optimizeAllFiles_kinds {R : Type} (o : Optimizer R) (sm : StyleMapping)
    (files : List (ParsedCssFile R)) (cache : SelectorCache) :
    (o.optimizeAllFiles sm files cache).2.2.2.map Event.kind
      = multiKinds o.multiFileOptimizations.length := by
  unfold Optimizer.optimizeAllFiles multiKinds
  rw [runMultiPasses_kinds]
  apply List.map_eq_map_iff.mpr
  intro j _
  rw [Nat.zero_add]

theorem optimizeSingleFile_kinds {R E : Type} (o : Optimizer R)
    (parse : String → Except E R) (sm : StyleMapping) (source : CssFile R)
    (cache : SelectorCache) (fileIdx : Nat)
    (r : StyleMapping × ParsedCssFile R × SelectorCache × List Event)
    (h : o.optimizeSingleFile parse sm source cache fileIdx = Except.ok r) :
    r.2.2.2.map Event.kind
      = EventKind.parseFile fileIdx ::
        (List.range o.singleFileOptimizations.length).map fun j =>
          EventKind.singlePass j fileIdx := by
  cases hp : parseCss parse source with
  | error e =>
    rw [optimizeSingleFile_error o parse sm source cache fileIdx e hp] at h
    simp at h
  | ok pf =>
    rw [optimizeSingleFile_ok o parse sm source cache fileIdx pf hp] at h
    injection h with h2
    subst h2
    dsimp only
    rw [List.map_cons, runSinglePasses_kinds]
    congr 1
    apply List.map_eq_map_iff.mpr
    intro j _
    rw [Nat.zero_add]

theorem runPhase1_kinds {R E : Type} (o : Optimizer R)
    (parse : String → Except E R) :
    ∀ (srcs : List (CssFile R)) (i0 : Nat) (sm : StyleMapping)
      (cache : SelectorCache)
      (r : StyleMapping × List (ParsedCssFile R) × SelectorCache × List Event),
      o.runPhase1 parse srcs i0 sm cache = Except.ok r →
      r.2.2.2.map Event.kind
        = phase1KindsFrom i0 srcs.length
            o.singleFileOptimizations.length := by
  intro srcs
  induction srcs with
  | nil =>
    intro i0 sm cache r h
    simp only [Optimizer.runPhase1] at h
    injection h with h2
    subst h2
    rfl
  | cons g rest ih =>
    intro i0 sm cache r h
    cases hs : o.optimizeSingleFile parse sm g cache i0 with
    | error e =>
      rw [runPhase1_cons_error o parse g rest i0 sm cache e hs] at h
      simp at h
    | ok r1 =>
      rw [runPhase1_cons_ok o parse g rest i0 sm cache r1 hs] at h
      cases hr : o.runPhase1 parse rest (i0 + 1) r1.1 r1.2.2.1 with
      | error e =>
        rw [hr] at h
        simp at h
      | ok r2 =>
        rw [hr] at h
        dsimp only at h
        injection h with h2
        subst h2
        dsimp only
        rw [List.map_append,
          optimizeSingleFile_kinds o parse sm g cache i0 r1 hs,
          ih (i0 + 1) r1.1 r1.2.2.1 r2 hr]
        rfl

theorem phase1KindsFrom_phase1 :
    ∀ (numFiles i0 numPasses : Nat) (k : EventKind),
      k ∈ phase1KindsFrom i0 numFiles numPasses → k.isPhase1 = true := by
  intro numFiles
  induction numFiles with
  | zero =>
    intro i0 nP k h
    simp [phase1KindsFrom] at h
  | succ n ih =>
    intro i0 nP k h
    simp only [phase1KindsFrom, List.mem_append, List.mem_cons] at h
    rcases h with (rfl | h) | h
    · rfl
    · obtain ⟨j, _, rfl⟩ := List.mem_map.mp h
      rfl
    · exact ih (i0 + 1) nP k h

theorem multiKinds_multi (n : Nat) (k : EventKind) (h : k ∈ multiKinds n) :
    k.isMultiPass = true := by
  obtain ⟨j, _, rfl⟩ := List.mem_map.mp h
  rfl

theorem isPhase1_not_isMultiPass (k : EventKind) (h : k.isPhase1 = true) :
    k.isMultiPass = false := by
  cases k <;> simp_all [EventKind.isPhase1, EventKind.isMultiPass]

theorem isMultiPass_not_isPhase1 (k : EventKind) (h : k.isMultiPass = true) :
    k.isPhase1 = false := by
  cases k <;> simp_all [EventKind.isPhase1, EventKind.isMultiPass]

theorem isPhase1_not_isConstruct (k : EventKind) (h : k.isPhase1 = true) :
    k.isConstruct = false := by
  cases k <;> simp_all [EventKind.isPhase1, EventKind.isConstruct]

theorem isMultiPass_not_isConstruct (k : EventKind) (h : k.isMultiPass = true) :
    k.isConstruct = false := by
  cases k <;> simp_all [EventKind.isMultiPass, EventKind.isConstruct]

theorem kindAt_append_left (l1 l2 : List Event) (i : Nat) (h : i < l1.length) :
    ∃ ev ∈ l1, kindAt (l1 ++ l2) i = ev.kind := by
  unfold kindAt
  rw [List.get?_append h, List.get?_eq_get h]
  exact ⟨l1.get ⟨i, h⟩, List.get_mem _ _ _, rfl⟩

theorem kindAt_append_right (l1 l2 : List Event) (j : Nat)
    (h : l1.length ≤ j) :
    kindAt (l1 ++ l2) j = kindAt l2 (j - l1.length) := by
  unfold kindAt
  rw [List.get?_append_right h]

theorem kindAt_cases (l : List Event) (i : Nat) :
    (∃ ev ∈ l, kindAt l i = ev.kind) ∨
      kindAt l i = EventKind.construct "outOfRange" := by
  unfold kindAt
  cases hg : l.get? i with
  | none => exact Or.inr rfl
  | some ev => exact Or.inl ⟨ev, List.get?_mem hg, rfl⟩

/-! ### Threading of the shared ledger and cache through a trace -/

theorem finalSm_append (l1 l2 : List Event) :
    ∀ sm, finalSm sm (l1 ++ l2) = finalSm (finalSm sm l1) l2 := by
  induction l1 with
  | nil => intro sm; rfl
  | cons ev rest ih => intro sm; exact ih ev.smOut

theorem finalCache_append (l1 l2 : List Event) :
    ∀ cache, finalCache cache (l1 ++ l2) = finalCache (finalCache cache l1) l2 := by
  induction l1 with
  | nil => intro cache; rfl
  | cons ev rest ih => intro cache; exact ih ev.cacheOut

theorem chainedFrom_append (l1 l2 : List Event) :
    ∀ sm cache, chainedFrom sm cache (l1 ++ l2)
      = (chainedFrom sm cache l1 &&
         chainedFrom (finalSm sm l1) (finalCache cache l1) l2) := by
  induction l1 with
  | nil =>
    intro sm cache
    simp [chainedFrom, finalSm, finalCache]
  | cons ev rest ih =>
    intro sm cache
    simp [chainedFrom, finalSm, finalCache, ih ev.smOut ev.cacheOut,
      Bool.and_assoc]

theorem runSinglePasses_chain {R : Type} (analyses : List TemplateAnalysis)
    (fileIdx : Nat) :
    ∀ (passes : List (SingleFileOptimization R)) (p0 : Nat) (sm : StyleMapping)
      (file : ParsedCssFile R) (cache : SelectorCache),
      chainedFrom sm cache
          (runSinglePasses analyses fileIdx passes p0 sm file cache).2.2.2
        = true ∧
      finalSm sm (runSinglePasses analyses fileIdx passes p0 sm file cache).2.2.2
        = (runSinglePasses analyses fileIdx passes p0 sm file cache).1 ∧
      finalCache cache
          (runSinglePasses analyses fileIdx passes p0 sm file cache).2.2.2
        = (runSinglePasses analyses fileIdx passes p0 sm file cache).2.2.1 := by
  intro passes
  induction passes with
  | nil =>
    intro p0 sm file cache
    exact ⟨rfl, rfl, rfl⟩
  | cons pass rest ih =>
    intro p0 sm file cache
    obtain ⟨ih1, ih2, ih3⟩ := ih (p0 + 1) (pass sm file analyses cache).1
      ⟨(pass sm file analyses cache).2.1, file.filename⟩
      (pass sm file analyses cache).2.2
    dsimp only [runSinglePasses]
    refine ⟨?_, ?_, ?_⟩
    · simp [chainedFrom, ih1]
    · simpa [finalSm] using ih2
    · simpa [finalCache] using ih3

theorem runMultiPasses_chain {R : Type} (analyses : List TemplateAnalysis) :
    ∀ (passes : List (MultiFileOptimization R)) (p0 : Nat) (sm : StyleMapping)
      (files : List (ParsedCssFile R)) (cache : SelectorCache),
      chainedFrom sm cache
          (runMultiPasses analyses passes p0 sm files cache).2.2.2 = true ∧
      finalSm sm (runMultiPasses analyses passes p0 sm files cache).2.2.2
        = (runMultiPasses analyses passes p0 sm files cache).1 ∧
      finalCache cache
          (runMultiPasses analyses passes p0 sm files cache).2.2.2
        = (runMultiPasses analyses passes p0 sm files cache).2.2.1 := by
  intro passes
  induction passes with
  | nil =>
    intro p0 sm files cache
    exact ⟨rfl, rfl, rfl⟩
  | cons pass rest ih =>
    intro p0 sm files cache
    obtain ⟨ih1, ih2, ih3⟩ := ih (p0 + 1) (pass sm files analyses cache).1
      (writeBack files (pass sm files analyses cache).2.1)
      (pass sm files analyses cache).2.2
    dsimp only [runMultiPasses]
    refine ⟨?_, ?_, ?_⟩
    · simp [chainedFrom, ih1]
    · simpa [finalSm] using ih2
    · simpa [finalCache] using ih3

theorem optimizeSingleFile_chain {R E : Type} (o : Optimizer R)
    (parse : String → Except E R) (sm : StyleMapping) (source : CssFile R)
    (cache : SelectorCache) (fileIdx : Nat)
    (r : StyleMapping × ParsedCssFile R × SelectorCache × List Event)
    (h : o.optimizeSingleFile parse sm source cache fileIdx = Except.ok r) :
    chainedFrom sm cache r.2.2.2 = true ∧
    finalSm sm r.2.2.2 = r.1 ∧
    finalCache cache r.2.2.2 = r.2.2.1 := by
  cases hp : parseCss parse source with
  | error e =>
    rw [optimizeSingleFile_error o parse sm source cache fileIdx e hp] at h
    simp at h
  | ok pf =>
    rw [optimizeSingleFile_ok o parse sm source cache fileIdx pf hp] at h
    injection h with hinj
    subst hinj
    obtain ⟨c1, f1, g1⟩ := runSinglePasses_chain o.analyses fileIdx
      o.singleFileOptimizations 0 sm pf cache
    refine ⟨?_, ?_, ?_⟩
    · simp [chainedFrom, c1]
    · simpa [finalSm] using f1
    · simpa [finalCache] using g1

theorem runPhase1_chain {R E : Type} (o : Optimizer R)
    (parse : String → Except E R) :
    ∀ (srcs : List (CssFile R)) (i0 : Nat) (sm : StyleMapping)
      (cache : SelectorCache)
      (r : StyleMapping × List (ParsedCssFile R) × SelectorCache × List Event),
      o.runPhase1 parse srcs i0 sm cache = Except.ok r →
      chainedFrom sm cache r.2.2.2 = true ∧
      finalSm sm r.2.2.2 = r.1 ∧
      finalCache cache r.2.2.2 = r.2.2.1 := by
  intro srcs
  induction srcs with
  | nil =>
    intro i0 sm cache r h
    simp only [Optimizer.runPhase1] at h
    injection h with hinj
    subst hinj
    exact ⟨rfl, rfl, rfl⟩
  | cons g rest ih =>
    intro i0 sm cache r h
    cases hs : o.optimizeSingleFile parse sm g cache i0 with
    | error e =>
      rw [runPhase1_cons_error o parse g rest i0 sm cache e hs] at h
      simp at h
    | ok r1 =>
      rw [runPhase1_cons_ok o parse g rest i0 sm cache r1 hs] at h
      cases hr : o.runPhase1 parse rest (i0 + 1) r1.1 r1.2.2.1 with
      | error e =>
        rw [hr] at h
        simp at h
      | ok r2 =>
        rw [hr] at h
        dsimp only at h
        injection h with hinj
        subst hinj
        obtain ⟨c1, f1, g1⟩ :=
          optimizeSingleFile_chain o parse sm g cache i0 r1 hs
        obtain ⟨c2, f2, g2⟩ := ih (i0 + 1) r1.1 r1.2.2.1 r2 hr
        dsimp only
        refine ⟨?_, ?_, ?_⟩
        · rw [chainedFrom_append, c1, f1, g1, c2]
          rfl
        · rw [finalSm_append, f1, f2]
        · rw [finalCache_append, g1, g2]

/-! ### Concrete fixtures used by witnesses and counterexamples -/

/-- The identity parser over `R = String`: the rule tree of a source is its
own text (a parser that always succeeds). -/
def parseOkFn : String → Except String String := fun s => Except.ok s

/-- An empty optimization registry. -/
def regEmpty : OptimizationRegistry String := []

/-- A concrete raw CSS source. -/
def srcA : CssFile String := ⟨Sum.inl ".a color red", some "a.css", none⟩

/-- A second concrete raw CSS source. -/
def srcB : CssFile String := ⟨Sum.inl ".b color blue", some "b.css", none⟩

/-! ### C9 -/

/-- C9: the effective configuration merges the supplied partial options over
the defaults — every key present in the supplied options takes the supplied
value, every absent key takes the `DEFAULT_OPTIONS` value. (Non-mutation of
the two inputs is inherent: `Object.assign` writes into a fresh `{}`, and the
model is pure.) -/
theorem claim9_options_merged_over_defaults {R : Type}
    (registry : OptimizationRegistry R) (opts : Options)
    (hnd : (opts.map Prod.fst).Nodup) (k : String) :
    (∀ v, lookupOpt opts k = some v →
        lookupOpt (Optimizer.new registry opts).options k = some v) ∧
    (lookupOpt opts k = none →
        lookupOpt (Optimizer.new registry opts).options k
          = lookupOpt DEFAULT_OPTIONS k) := by
  constructor
  · intro v hv
    rw [optimizer_new_options]
    exact lookupOpt_objAssign_some opts _ k v hnd hv
  · intro hnone
    rw [optimizer_new_options]
    unfold mergedOptions
    rw [lookupOpt_objAssign_none opts _ k hnone]
    by_cases hd : lookupOpt DEFAULT_OPTIONS k = none
    · rw [lookupOpt_objAssign_none _ _ _ hd, hd]
      rfl
    · obtain ⟨v, hv⟩ := Option.ne_none_iff_exists'.mp hd
      rw [lookupOpt_objAssign_some _ _ _ _ (by decide) hv, hv]

/-- Witness for C9 at a concrete supplied-options object: the supplied
`enabled` value wins, the absent `rewriteIdents` key falls back to its
default. -/
theorem claim9_witness :
    lookupOpt (Optimizer.new regEmpty
        [("enabled", OptionValue.bool false)]).options "enabled"
      = some (OptionValue.bool false) ∧
    lookupOpt (Optimizer.new regEmpty
        [("enabled", OptionValue.bool false)]).options "rewriteIdents"
      = lookupOpt DEFAULT_OPTIONS "rewriteIdents" :=
  ⟨(claim9_options_merged_over_defaults regEmpty
      [("enabled", OptionValue.bool false)] (by decide) "enabled").1 _ rfl,
   (claim9_options_merged_over_defaults regEmpty
      [("enabled", OptionValue.bool false)] (by decide) "rewriteIdents").2 rfl⟩

/-! ### C10 -/

/-- C10: a source whose content is already a parsed handle is returned by
`parseCss` as the same file (same rule tree, same filename) without invoking
the external parser — the result does not depend on the parser function at
all; a source whose content is a string is sent through the parser. -/
theorem claim10_parseCss_preparsed_passthrough {R E : Type}
    (parse parse2 : String → Except E R) (file : CssFile R) :
    (∀ r, file.content = Sum.inr r →
        parseCss parse file = Except.ok ⟨r, file.filename⟩ ∧
        parseCss parse file = parseCss parse2 file) ∧
    (∀ s, file.content = Sum.inl s →
        parseCss parse file
          = (parse s).map fun root => ⟨root, file.filename⟩) := by
  constructor
  · intro r hr
    constructor <;> simp [parseCss, hr]
  · intro s hs
    simp [parseCss, hs]

/-- Witness for C10: a concrete pre-parsed source passes through unchanged,
and the result coincides under a parser that always fails (the parser is not
consulted). -/
theorem claim10_witness :
    parseCss parseOkFn
        (⟨Sum.inr "tree", some "a.css", none⟩ : CssFile String)
      = Except.ok ⟨"tree", some "a.css"⟩ ∧
    parseCss parseOkFn
        (⟨Sum.inr "tree", some "a.css", none⟩ : CssFile String)
      = parseCss (fun _ => Except.error "boom")
          ⟨Sum.inr "tree", some "a.css", none⟩ :=
  (claim10_parseCss_preparsed_passthrough parseOkFn
    (fun _ => Except.error "boom") _).1 "tree" rfl

/-! ### C6 -/

/-- An empty registry together with an options object carrying an
unrecognized key, for the C6 counterexample. -/
def regC6 : OptimizationRegistry String := []

/-- Options containing the unrecognized key `bogusSetting`. -/
def optsC6 : Options :=
  [("enabled", OptionValue.bool true), ("bogusSetting", OptionValue.bool true)]

/-- A full run over options containing an unrecognized key. -/
def runC6 : Except String (OptimizationResult String × List Event) :=
  ((Optimizer.new regC6 optsC6).addSources [srcA]).optimize parseOkFn id "out.css"

/-- C6 counterexample: at a concrete options object containing the unknown
key `bogusSetting`, the optimizer raises no error at all — the unknown key
is silently merged into the effective options, and `optimize()` goes on to
parse and process the file successfully, refuting the claim that a
ConfigurationError is surfaced before any file is processed. -/
theorem claim6_counterexample :
    exceptIsOk runC6 = true ∧
    lookupOpt (Optimizer.new regC6 optsC6).options "bogusSetting"
      = some (OptionValue.bool true) ∧
    kindAt (extractTrace runC6) 0 = EventKind.parseFile 0 := by
  decide

/-- C6 amended: the constructor performs no option validation — any supplied
options object is accepted, its keys (known or unknown) are merged over the
defaults into the effective options, and `optimize()` proceeds normally
(its only failure mode is a parse failure). -/
theorem claim6_amended_no_validation {R E : Type}
    (registry : OptimizationRegistry R) (opts : Options)
    (srcs : List (CssFile R)) (parse : String → Except E R)
    (toCss : R → String) (outputFilename : String)
    (k : String) (v : OptionValue)
    (hnd : (opts.map Prod.fst).Nodup)
    (hk : lookupOpt opts k = some v)
    (hp : ∀ g ∈ srcs, exceptIsOk (parseCss parse g) = true) :
    lookupOpt ((Optimizer.new registry opts).addSources srcs).options k
      = some v ∧
    exceptIsOk (((Optimizer.new registry opts).addSources srcs).optimize
      parse toCss outputFilename) = true := by
  have hfields := addSources_eq srcs (Optimizer.new registry opts)
  constructor
  · rw [hfields]
    show lookupOpt (Optimizer.new registry opts).options k = some v
    rw [optimizer_new_options]
    exact lookupOpt_objAssign_some opts _ k v hnd hk
  · have hsrc : ((Optimizer.new registry opts).addSources srcs).sources = srcs := by
      rw [hfields]
      show (Optimizer.new registry opts).sources ++ srcs = srcs
      rw [optimizer_new_sources]
      rfl
    set o := (Optimizer.new registry opts).addSources srcs with ho
    simp only [Optimizer.optimize]
    rw [hsrc]
    have hok := runPhase1_ok o parse srcs 0 StyleMapping.new SelectorCache.new hp
    cases hr : o.runPhase1 parse srcs 0 StyleMapping.new SelectorCache.new with
    | error e =>
      rw [hr] at hok
      simp [exceptIsOk] at hok
    | ok r => rfl

/-- Witness for C6's amended statement at the concrete unknown-key options. -/
theorem claim6_witness :
    lookupOpt ((Optimizer.new regC6 optsC6).addSources [srcA]).options
        "bogusSetting" = some (OptionValue.bool true) ∧
    exceptIsOk runC6 = true :=
  claim6_amended_no_validation regC6 optsC6 [srcA] parseOkFn id "out.css"
    "bogusSetting" (OptionValue.bool true) (by decide) (by decide) (by decide)

/-! ### C1 -/

/-- C1: constructing an `Optimizer` with `enabled` false instantiates no
passes — both pass groups are empty and the constructor records no
construction event — and `optimize()` then only parses each source and
reserializes: when every source is raw text that parses and the external
printer inverts the parser, the output content is the concatenation of the
unmodified inputs (joined by the chunk separator) and the returned style
mapping is empty. -/
theorem claim1_disabled_noop {R E : Type}
    (registry : OptimizationRegistry R) (opts : Options)
    (srcs : List (CssFile R)) (parse : String → Except E R)
    (toCss : R → String) (outputFilename : String) (v : OptionValue)
    (hnd : (opts.map Prod.fst).Nodup)
    (he : lookupOpt opts "enabled" = some v)
    (hv : v.truthy = false)
    (hrt : ∀ s t, parse s = Except.ok t → toCss t = s)
    (hraw : ∀ g ∈ srcs, ∃ s, g.content = Sum.inl s ∧
      exceptIsOk (parse s) = true) :
    (Optimizer.new registry opts).singleFileOptimizations = [] ∧
    (Optimizer.new registry opts).multiFileOptimizations = [] ∧
    (Optimizer.construct registry opts).2 = [] ∧
    exceptIsOk (((Optimizer.new registry opts).addSources srcs).optimize
      parse toCss outputFilename) = true ∧
    extractContent (((Optimizer.new registry opts).addSources srcs).optimize
        parse toCss outputFilename)
      = String.intercalate "\n" (srcs.map (sourceText toCss)) ∧
    extractSM (((Optimizer.new registry opts).addSources srcs).optimize
      parse toCss outputFilename) = StyleMapping.new := by
  have hfalsy := merged_enabled_falsy opts v hnd he hv
  have hcon := optimizer_disabled registry opts hfalsy
  have hnew : Optimizer.new registry opts
      = ⟨[], [], mergedOptions DEFAULT_OPTIONS opts, [], []⟩ := by
    unfold Optimizer.new
    rw [hcon]
  have htrace : (Optimizer.construct registry opts).2 = [] := by
    rw [hcon]
  have ho : (Optimizer.new registry opts).addSources srcs
      = ⟨srcs, [], mergedOptions DEFAULT_OPTIONS opts, [], []⟩ := by
    rw [hnew, addSources_eq]
    rfl
  obtain ⟨files, evs, hrun, hmap⟩ :=
    runPhase1_no_passes ((Optimizer.new registry opts).addSources srcs)
      parse toCss (by rw [ho]) hrt srcs 0 StyleMapping.new SelectorCache.new hraw
  have hopt := optimize_of_phase1_ok
    ((Optimizer.new registry opts).addSources srcs) parse toCss outputFilename
    _ (by rw [show ((Optimizer.new registry opts).addSources srcs).sources = srcs
              from by rw [ho]]
          exact hrun)
  dsimp only at hopt
  rw [optimizeAllFiles_no_passes _ (by rw [ho]) StyleMapping.new files
    SelectorCache.new] at hopt
  refine ⟨by rw [hnew], by rw [hnew], htrace, ?_, ?_, ?_⟩
  · rw [hopt]
    rfl
  · rw [hopt]
    show String.intercalate "\n" (files.map fun f => toCss f.content)
      = String.intercalate "\n" (srcs.map (sourceText toCss))
    rw [hmap]
  · rw [hopt]
    rfl

/-- A pass implementing both capability shapes, used as a concrete fixture:
it marks the ledger's removal relation and appends a marker to each rule
tree it touches. -/
def markPass : Optimization String where
  optimizeSingleFile := some fun sm file _ cache =>
    ({ sm with removals := ("single", "mark") :: sm.removals },
      file.content ++ "S", cache)
  optimizeAllFiles := some fun sm files _ cache =>
    ({ sm with removals := ("multi", "mark") :: sm.removals },
      files.map (fun f => f.content ++ "M"), cache)

/-- A registry holding the one marking pass. -/
def regMark : OptimizationRegistry String := [("markPass", fun _ => markPass)]

/-- Options disabling optimization globally while the pass's own flag is on. -/
def optsDisabled : Options :=
  [("enabled", OptionValue.bool false), ("markPass", OptionValue.bool true)]

/-- A full run of the globally disabled optimizer over two raw sources. -/
def runC1 : Except String (OptimizationResult String × List Event) :=
  ((Optimizer.new regMark optsDisabled).addSources [srcA, srcB]).optimize
    parseOkFn id "out.css"

/-- Witness for C1 at a concrete disabled configuration whose registry does
carry an (individually enabled) pass. -/
theorem claim1_witness :
    (Optimizer.new regMark optsDisabled).singleFileOptimizations = [] ∧
    (Optimizer.new regMark optsDisabled).multiFileOptimizations = [] ∧
    (Optimizer.construct regMark optsDisabled).2 = [] ∧
    exceptIsOk runC1 = true ∧
    extractContent runC1
      = String.intercalate "\n" ([srcA, srcB].map (sourceText id)) ∧
    extractSM runC1 = StyleMapping.new :=
  claim1_disabled_noop regMark optsDisabled [srcA, srcB] parseOkFn id
    "out.css" (OptionValue.bool false) (by decide) rfl rfl
    (by intro s t h; cases h; rfl)
    (by
      intro g hg
      simp only [List.mem_cons, List.not_mem_nil, or_false] at hg
      rcases hg with rfl | rfl
      · exact ⟨".a color red", rfl, rfl⟩
      · exact ⟨".b color blue", rfl, rfl⟩)

/-! ### C3 -/

/-- C3: if parsing any one source fails, the whole `optimize()` call fails
with that parse error and no `OptimizationResult` is produced. Stated for the
first failing source (the sources before it parse successfully), matching the
failure `Promise.all` propagates. -/
theorem claim3_parse_failure_aborts {R E : Type} (o : Optimizer R)
    (parse : String → Except E R) (toCss : R → String) (outputFilename : String)
    (pre post : List (CssFile R)) (f : CssFile R) (s : String) (e : E)
    (hsrc : o.sources = pre ++ f :: post)
    (hpre : ∀ g ∈ pre, exceptIsOk (parseCss parse g) = true)
    (hf : f.content = Sum.inl s)
    (he : parse s = Except.error e) :
    o.optimize parse toCss outputFilename = Except.error e := by
  have hparse : parseCss parse f = Except.error e := by
    simp [parseCss, hf, he, Except.map]
  have key : ∀ (pre : List (CssFile R)) (i0 : Nat) (sm : StyleMapping)
      (cache : SelectorCache),
      (∀ g ∈ pre, exceptIsOk (parseCss parse g) = true) →
      o.runPhase1 parse (pre ++ f :: post) i0 sm cache = Except.error e := by
    intro pre
    induction pre with
    | nil =>
      intro i0 sm cache _
      rw [List.nil_append]
      exact runPhase1_cons_error o parse f post i0 sm cache e
        (optimizeSingleFile_error o parse sm f cache i0 e hparse)
    | cons g rest ih =>
      intro i0 sm cache hall
      obtain ⟨pf, hpf⟩ :=
        (exceptIsOk_iff _).mp (hall g (List.mem_cons_self g rest))
      have hstep := optimizeSingleFile_ok o parse sm g cache i0 pf hpf
      generalize hrs :
        runSinglePasses o.analyses i0 o.singleFileOptimizations 0 sm pf cache
          = rs at hstep
      rw [List.cons_append,
        runPhase1_cons_ok o parse g (rest ++ f :: post) i0 sm cache _ hstep]
      dsimp only
      rw [ih (i0 + 1) rs.1 rs.2.2.1
        (fun g' hm => hall g' (List.mem_cons_of_mem _ hm))]
  exact optimize_of_phase1_error o parse toCss outputFilename e
    (by rw [hsrc]; exact key pre 0 StyleMapping.new SelectorCache.new hpre)

/-- A parser that fails on the marker text `.bad` and succeeds elsewhere. -/
def parseFailOn : String → Except String String := fun s =>
  if s == ".bad" then Except.error "parse failure" else Except.ok s

/-- A source whose text the fixture parser rejects. -/
def srcBad : CssFile String := ⟨Sum.inl ".bad", some "bad.css", none⟩

/-- Witness for C3: a concrete run whose second source fails to parse
aborts the whole call with exactly that parse error. -/
theorem claim3_witness :
    ((Optimizer.new regEmpty []).addSources [srcA, srcBad]).optimize
      parseFailOn id "out.css" = Except.error "parse failure" :=
  claim3_parse_failure_aborts _ parseFailOn id "out.css" [srcA] [] srcBad
    ".bad" "parse failure" rfl (by decide) rfl rfl

/-! ### C4 -/

/-- C4: every `optimize()` call starts from a fresh empty style mapping and
a fresh empty selector cache, threads exactly those two objects through all
pass invocations of both phases (each invocation receives the state the
previous one produced), and returns the final style mapping in the result.
There is no carry-over between calls: the chain provably starts at the empty
ledgers on every call. -/
theorem claim4_fresh_state_threaded {R E : Type} (o : Optimizer R)
    (parse : String → Except E R) (toCss : R → String) (outputFilename : String)
    (p : OptimizationResult R × List Event)
    (h : o.optimize parse toCss outputFilename = Except.ok p) :
    chainedFrom StyleMapping.new SelectorCache.new p.2 = true ∧
    p.1.styleMapping = finalSm StyleMapping.new p.2 := by
  cases hr : o.runPhase1 parse o.sources 0 StyleMapping.new SelectorCache.new with
  | error e =>
    rw [optimize_of_phase1_error o parse toCss outputFilename e hr] at h
    simp at h
  | ok r =>
    rw [optimize_of_phase1_ok o parse toCss outputFilename r hr] at h
    injection h with hinj
    subst hinj
    obtain ⟨c1, f1, g1⟩ := runPhase1_chain o parse o.sources 0
      StyleMapping.new SelectorCache.new r hr
    obtain ⟨c2, f2, g2⟩ := runMultiPasses_chain o.analyses
      o.multiFileOptimizations 0 r.1 r.2.1 r.2.2.1
    dsimp only
    constructor
    · rw [chainedFrom_append, c1, f1, g1]
      simpa [Optimizer.optimizeAllFiles] using c2
    · rw [finalSm_append, f1]
      show (o.optimizeAllFiles r.1 r.2.1 r.2.2.1).1
        = finalSm r.1 (o.optimizeAllFiles r.1 r.2.1 r.2.2.1).2.2.2
      simpa [Optimizer.optimizeAllFiles] using f2.symm

/-- Options enabling optimization globally and the marking pass. -/
def optsMarkOn : Options :=
  [("enabled", OptionValue.bool true), ("markPass", OptionValue.bool true)]

/-- A full run with the both-capability marking pass enabled over two raw
sources. -/
def runMarkAB : Except String (OptimizationResult String × List Event) :=
  ((Optimizer.new regMark optsMarkOn).addSources [srcA, srcB]).optimize
    parseOkFn id "out.css"

/-- Witness for C4 at a concrete run whose pass does update the ledger. -/
theorem claim4_witness :
    chainedFrom StyleMapping.new SelectorCache.new (extractTrace runMarkAB)
      = true ∧
    extractSM runMarkAB = finalSm StyleMapping.new (extractTrace runMarkAB) :=
  claim4_fresh_state_threaded
    ((Optimizer.new regMark optsMarkOn).addSources [srcA, srcB])
    parseOkFn id "out.css" _ rfl

/-! ### C2 -/

/-- C2: in every (successful) run of `optimize()`, every cross-file pass
invocation occurs strictly after every parse completion and every
single-file pass invocation, for all files — phase 2 begins only after
phase 1 has finished for all files. (In a failed run no cross-file pass runs
at all: the run aborts during phase 1.) -/
theorem claim2_phase_ordering {R E : Type} (o : Optimizer R)
    (parse : String → Except E R) (toCss : R → String) (outputFilename : String)
    (p : OptimizationResult R × List Event)
    (h : o.optimize parse toCss outputFilename = Except.ok p) :
    ∀ i j, (kindAt p.2 i).isMultiPass = true →
      (kindAt p.2 j).isPhase1 = true → j < i := by
  cases hr : o.runPhase1 parse o.sources 0 StyleMapping.new SelectorCache.new with
  | error e =>
    rw [optimize_of_phase1_error o parse toCss outputFilename e hr] at h
    simp at h
  | ok r =>
    rw [optimize_of_phase1_ok o parse toCss outputFilename r hr] at h
    injection h with hinj
    subst hinj
    dsimp only
    intro i j hi hj
    have hphase1 : ∀ ev ∈ r.2.2.2, ev.kind.isPhase1 = true := by
      intro ev hm
      have hmk : ev.kind ∈ r.2.2.2.map Event.kind :=
        List.mem_map_of_mem _ hm
      rw [runPhase1_kinds o parse o.sources 0 StyleMapping.new
        SelectorCache.new r hr] at hmk
      exact phase1KindsFrom_phase1 _ _ _ _ hmk
    have hmulti : ∀ ev ∈ (o.optimizeAllFiles r.1 r.2.1 r.2.2.1).2.2.2,
        ev.kind.isMultiPass = true := by
      intro ev hm
      have hmk : ev.kind
          ∈ (o.optimizeAllFiles r.1 r.2.1 r.2.2.1).2.2.2.map Event.kind :=
        List.mem_map_of_mem _ hm
      rw [optimizeAllFiles_kinds o r.1 r.2.1 r.2.2.1] at hmk
      exact multiKinds_multi _ _ hmk
    by_cases hjlen : j < r.2.2.2.length
    · by_cases hilen : i < r.2.2.2.length
      · exfalso
        obtain ⟨ev, hmem, hk⟩ := kindAt_append_left _ _ i hilen
        rw [hk] at hi
        rw [isPhase1_not_isMultiPass ev.kind (hphase1 ev hmem)] at hi
        exact Bool.false_ne_true hi
      · omega
    · exfalso
      rw [kindAt_append_right _ _ j (by omega)] at hj
      rcases kindAt_cases ((o.optimizeAllFiles r.1 r.2.1 r.2.2.1).2.2.2)
        (j - r.2.2.2.length) with ⟨ev, hmem, hk⟩ | hoob
      · rw [hk] at hj
        rw [isMultiPass_not_isPhase1 ev.kind (hmulti ev hmem)] at hj
        exact Bool.false_ne_true hj
      · rw [hoob] at hj
        exact Bool.false_ne_true hj

/-- Witness for C2: in the concrete marked run the cross-file invocation
(position 4 of the trace) comes after a phase-1 event (position 0). -/
theorem claim2_witness :
    (kindAt (extractTrace runMarkAB) 4).isMultiPass = true ∧
    (kindAt (extractTrace runMarkAB) 0).isPhase1 = true ∧
    0 < 4 :=
  ⟨by decide, by decide,
   claim2_phase_ordering
     ((Optimizer.new regMark optsMarkOn).addSources [srcA, srcB])
     parseOkFn id "out.css" _ rfl 4 0 (by decide) (by decide)⟩

/-! ### C5 -/

theorem instantiatePasses_constructedKinds {R : Type} (opts : Options) :
    ∀ (registry : OptimizationRegistry R),
      constructedKinds (instantiatePasses opts registry).2.2
        = (registry.map Prod.fst).filter fun n => optTruthy opts n := by
  intro registry
  induction registry with
  | nil => rfl
  | cons kv rest ih =>
    obtain ⟨name, ctor⟩ := kv
    cases h : optTruthy opts name with
    | false =>
      simp [instantiatePasses, h, ih, List.filter_cons]
    | true =>
      simp [instantiatePasses, h, List.filter_cons, constructedKinds,
        List.filterMap_cons]
      exact ih

theorem constructedKinds_eq_nil (evs : List Event)
    (h : ∀ ev ∈ evs, ev.kind.isConstruct = false) :
    constructedKinds evs = [] := by
  induction evs with
  | nil => rfl
  | cons ev rest ih =>
    have h1 := h ev (List.mem_cons_self ev rest)
    have h2 := ih fun e hm => h e (List.mem_cons_of_mem _ hm)
    cases hk : ev.kind with
    | construct n =>
      rw [hk] at h1
      simp [EventKind.isConstruct] at h1
    | parseFile i =>
      simp [constructedKinds, List.filterMap_cons, hk] at h2 ⊢
      exact h2
    | singlePass j i =>
      simp [constructedKinds, List.filterMap_cons, hk] at h2 ⊢
      exact h2
    | multiPass j =>
      simp [constructedKinds, List.filterMap_cons, hk] at h2 ⊢
      exact h2

theorem optimize_trace_no_constructs {R E : Type} (o : Optimizer R)
    (parse : String → Except E R) (toCss : R → String) (outputFilename : String)
    (p : OptimizationResult R × List Event)
    (h : o.optimize parse toCss outputFilename = Except.ok p) :
    constructedKinds p.2 = [] := by
  cases hr : o.runPhase1 parse o.sources 0 StyleMapping.new SelectorCache.new with
  | error e =>
    rw [optimize_of_phase1_error o parse toCss outputFilename e hr] at h
    simp at h
  | ok r =>
    rw [optimize_of_phase1_ok o parse toCss outputFilename r hr] at h
    injection h with hinj
    subst hinj
    dsimp only
    apply constructedKinds_eq_nil
    intro ev hm
    rcases List.mem_append.mp hm with hm1 | hm2
    · have hmk : ev.kind ∈ r.2.2.2.map Event.kind :=
        List.mem_map_of_mem _ hm1
      rw [runPhase1_kinds o parse o.sources 0 StyleMapping.new
        SelectorCache.new r hr] at hmk
      exact isPhase1_not_isConstruct _ (phase1KindsFrom_phase1 _ _ _ _ hmk)
    · have hmk : ev.kind
          ∈ (o.optimizeAllFiles r.1 r.2.1 r.2.2.1).2.2.2.map Event.kind :=
        List.mem_map_of_mem _ hm2
      rw [optimizeAllFiles_kinds o r.1 r.2.1 r.2.2.1] at hmk
      exact isMultiPass_not_isConstruct _ (multiKinds_multi _ _ hmk)

/-- C5 counterexample: in the concrete run with the enabled `markPass` kind,
the `optimize()` call itself performs zero pass constructions — the single
construction event happened in the `Optimizer` constructor — refuting the
claim that a new instance of each enabled kind is created per `optimize()`
invocation. -/
theorem claim5_counterexample :
    constructedKinds (extractTrace runMarkAB) = [] ∧
    constructedKinds (Optimizer.construct regMark optsMarkOn).2
      = ["markPass"] ∧
    exceptIsOk runMarkAB = true := by
  decide

/-- C5 amended: each enabled optimization pass is constructed exactly once
per `Optimizer` construction — the constructor records one construction
event per registry kind whose option is truthy (none when globally
disabled) — and `optimize()` itself constructs no passes: its trace contains
no construction events, reusing the instances made by the constructor. -/
theorem claim5_amended_constructed_once_per_optimizer {R : Type} (E : Type)
    (registry : OptimizationRegistry R) (opts : Options) :
    (optTruthy (mergedOptions DEFAULT_OPTIONS opts) "enabled" = true →
      constructedKinds (Optimizer.construct registry opts).2
        = (registry.map Prod.fst).filter fun n =>
            optTruthy (mergedOptions DEFAULT_OPTIONS opts) n) ∧
    (optTruthy (mergedOptions DEFAULT_OPTIONS opts) "enabled" = false →
      constructedKinds (Optimizer.construct registry opts).2 = []) ∧
    ∀ (srcs : List (CssFile R)) (parse : String → Except E R)
      (toCss : R → String) (outputFilename : String)
      (p : OptimizationResult R × List Event),
      ((Optimizer.new registry opts).addSources srcs).optimize parse toCss
          outputFilename = Except.ok p →
      constructedKinds p.2 = [] := by
  refine ⟨?_, ?_, ?_⟩
  · intro h
    have : (Optimizer.construct registry opts).2
        = (instantiatePasses (mergedOptions DEFAULT_OPTIONS opts)
            registry).2.2 := by
      simp [Optimizer.construct, h]
    rw [this, instantiatePasses_constructedKinds]
  · intro h
    rw [optimizer_disabled registry opts h]
    rfl
  · intro srcs parse toCss outputFilename p h
    exact optimize_trace_no_constructs _ parse toCss outputFilename p h

/-- Witness for C5's amended statement at the concrete registry and run. -/
theorem claim5_witness :
    constructedKinds (Optimizer.construct regMark optsMarkOn).2
      = (regMark.map Prod.fst).filter (fun n =>
          optTruthy (mergedOptions DEFAULT_OPTIONS optsMarkOn) n) ∧
    constructedKinds (extractTrace runMarkAB) = [] :=
  ⟨(claim5_amended_constructed_once_per_optimizer String regMark optsMarkOn).1
     (by decide),
   (claim5_amended_constructed_once_per_optimizer String regMark
     optsMarkOn).2.2 [srcA, srcB] parseOkFn id "out.css" _ rfl⟩

/-! ### C7 -/

theorem instantiatePasses_groups {R : Type} (opts : Options) :
    ∀ (registry : OptimizationRegistry R),
      (instantiatePasses opts registry).1
        = (enabledPasses registry opts).filterMap
            (fun q => q.optimizeSingleFile) ∧
      (instantiatePasses opts registry).2.1
        = (enabledPasses registry opts).filterMap
            (fun q => q.optimizeAllFiles) := by
  intro registry
  induction registry with
  | nil => exact ⟨rfl, rfl⟩
  | cons kv rest ih =>
    obtain ⟨name, ctor⟩ := kv
    obtain ⟨ih1, ih2⟩ := ih
    cases h : optTruthy opts name with
    | false =>
      constructor <;>
        simp [instantiatePasses, enabledPasses, h, ih1, ih2,
          List.filterMap_cons]
    | true =>
      constructor
      · cases hsf : (ctor opts).optimizeSingleFile <;>
          simp [instantiatePasses, enabledPasses, h, hsf, ih1,
            List.filterMap_cons]
      · cases haf : (ctor opts).optimizeAllFiles <;>
          simp [instantiatePasses, enabledPasses, h, haf, ih2,
            List.filterMap_cons]

theorem optimizer_enabled_groups {R : Type} (registry : OptimizationRegistry R)
    (opts : Options)
    (h : optTruthy (mergedOptions DEFAULT_OPTIONS opts) "enabled" = true) :
    (Optimizer.new registry opts).singleFileOptimizations
      = (instantiatePasses (mergedOptions DEFAULT_OPTIONS opts) registry).1 ∧
    (Optimizer.new registry opts).multiFileOptimizations
      = (instantiatePasses (mergedOptions DEFAULT_OPTIONS opts) registry).2.1 := by
  constructor <;> simp [Optimizer.new, Optimizer.construct, h]

/-- C7: an enabled pass implementing both capability shapes is registered in
both groups (one implementing a single shape only in the corresponding
group): the two groups are exactly the filterings of the enabled passes by
their capabilities. Moreover, in a successful run the trace's kinds are
exactly one parse per file followed by each single-file pass once per file
(in group order), then each cross-file pass exactly once — so a
both-capability pass is invoked once per file in phase 1 and once over all
files in phase 2. -/
theorem claim7_capability_bucketing {R E : Type}
    (registry : OptimizationRegistry R) (opts : Options)
    (srcs : List (CssFile R)) (parse : String → Except E R)
    (toCss : R → String) (outputFilename : String)
    (p : OptimizationResult R × List Event)
    (henabled : optTruthy (mergedOptions DEFAULT_OPTIONS opts) "enabled" = true)
    (hrun : ((Optimizer.new registry opts).addSources srcs).optimize parse
      toCss outputFilename = Except.ok p) :
    (Optimizer.new registry opts).singleFileOptimizations
      = (enabledPasses registry (mergedOptions DEFAULT_OPTIONS opts)).filterMap
          (fun q => q.optimizeSingleFile) ∧
    (Optimizer.new registry opts).multiFileOptimizations
      = (enabledPasses registry (mergedOptions DEFAULT_OPTIONS opts)).filterMap
          (fun q => q.optimizeAllFiles) ∧
    (∀ q ∈ enabledPasses registry (mergedOptions DEFAULT_OPTIONS opts),
      (∀ fsf, q.optimizeSingleFile = some fsf →
        fsf ∈ (Optimizer.new registry opts).singleFileOptimizations) ∧
      (∀ faf, q.optimizeAllFiles = some faf →
        faf ∈ (Optimizer.new registry opts).multiFileOptimizations)) ∧
    p.2.map Event.kind
      = phase1Kinds srcs.length
          (Optimizer.new registry opts).singleFileOptimizations.length ++
        multiKinds
          (Optimizer.new registry opts).multiFileOptimizations.length := by
  obtain ⟨hg1, hg2⟩ := optimizer_enabled_groups registry opts henabled
  obtain ⟨hc1, hc2⟩ :=
    instantiatePasses_groups (mergedOptions DEFAULT_OPTIONS opts) registry
  have hchar1 := hg1.trans hc1
  have hchar2 := hg2.trans hc2
  have hfields := addSources_eq srcs (Optimizer.new registry opts)
  have hsf : ((Optimizer.new registry opts).addSources srcs).singleFileOptimizations
      = (Optimizer.new registry opts).singleFileOptimizations := by
    rw [hfields]
  have hmf : ((Optimizer.new registry opts).addSources srcs).multiFileOptimizations
      = (Optimizer.new registry opts).multiFileOptimizations := by
    rw [hfields]
  have hsrcs : ((Optimizer.new registry opts).addSources srcs).sources = srcs := by
    rw [hfields, optimizer_new_sources]
    rfl
  refine ⟨hchar1, hchar2, ?_, ?_⟩
  · intro q hq
    constructor
    · intro fsf hfs
      rw [hchar1]
      exact List.mem_filterMap.mpr ⟨q, hq, hfs⟩
    · intro faf hfa
      rw [hchar2]
      exact List.mem_filterMap.mpr ⟨q, hq, hfa⟩
  · cases hr : ((Optimizer.new registry opts).addSources srcs).runPhase1 parse
        ((Optimizer.new registry opts).addSources srcs).sources 0
        StyleMapping.new SelectorCache.new with
    | error e =>
      rw [optimize_of_phase1_error _ parse toCss outputFilename e hr] at hrun
      simp at hrun
    | ok r =>
      rw [optimize_of_phase1_ok _ parse toCss outputFilename r hr] at hrun
      injection hrun with hinj
      subst hinj
      dsimp only
      rw [List.map_append,
        runPhase1_kinds _ parse _ 0 StyleMapping.new SelectorCache.new r hr,
        optimizeAllFiles_kinds, hsrcs, hsf, hmf]
      rfl

/-- Witness for C7: the concrete marked run's trace is exactly one parse and
one single-file invocation per file, then one cross-file invocation. -/
theorem claim7_witness :
    (extractTrace runMarkAB).map Event.kind
      = phase1Kinds 2
          (Optimizer.new regMark optsMarkOn).singleFileOptimizations.length ++
        multiKinds
          (Optimizer.new regMark optsMarkOn).multiFileOptimizations.length :=
  (claim7_capability_bucketing regMark optsMarkOn [srcA, srcB] parseOkFn id
    "out.css" _ (by decide) rfl).2.2.2

/-! ### C8 -/

theorem parseCss_filename {R E : Type} (parse : String → Except E R)
    (file : CssFile R) (pf : ParsedCssFile R)
    (h : parseCss parse file = Except.ok pf) :
    pf.filename = file.filename := by
  unfold parseCss at h
  cases hc : file.content with
  | inl s =>
    rw [hc] at h
    dsimp only at h
    cases hp : parse s with
    | error e =>
      rw [hp] at h
      simp [Except.map] at h
    | ok t =>
      rw [hp] at h
      dsimp only [Except.map] at h
      injection h with h2
      rw [← h2]
  | inr t =>
    rw [hc] at h
    dsimp only at h
    injection h with h2
    rw [← h2]

theorem runSinglePasses_filename {R : Type} (analyses : List TemplateAnalysis)
    (fileIdx : Nat) :
    ∀ (passes : List (SingleFileOptimization R)) (p0 : Nat) (sm : StyleMapping)
      (file : ParsedCssFile R) (cache : SelectorCache),
      (runSinglePasses analyses fileIdx passes p0 sm file cache).2.1.filename
        = file.filename := by
  intro passes
  induction passes with
  | nil =>
    intro p0 sm file cache
    rfl
  | cons pass rest ih =>
    intro p0 sm file cache
    dsimp only [runSinglePasses]
    exact ih (p0 + 1) _ _ _

theorem optimizeSingleFile_filename {R E : Type} (o : Optimizer R)
    (parse : String → Except E R) (sm : StyleMapping) (source : CssFile R)
    (cache : SelectorCache) (fileIdx : Nat)
    (r : StyleMapping × ParsedCssFile R × SelectorCache × List Event)
    (h : o.optimizeSingleFile parse sm source cache fileIdx = Except.ok r) :
    r.2.1.filename = source.filename := by
  cases hp : parseCss parse source with
  | error e =>
    rw [optimizeSingleFile_error o parse sm source cache fileIdx e hp] at h
    simp at h
  | ok pf =>
    rw [optimizeSingleFile_ok o parse sm source cache fileIdx pf hp] at h
    injection h with hinj
    subst hinj
    dsimp only
    rw [runSinglePasses_filename]
    exact parseCss_filename parse source pf hp

theorem writeBack_length {R : Type} :
    ∀ (files : List (ParsedCssFile R)) (roots : List R),
      (writeBack files roots).length = files.length := by
  intro files
  induction files with
  | nil =>
    intro roots
    cases roots <;> rfl
  | cons f fs ih =>
    intro roots
    cases roots with
    | nil => rfl
    | cons r rs => simp [writeBack, ih rs]

theorem writeBack_filename {R : Type} :
    ∀ (files : List (ParsedCssFile R)) (roots : List R) (i : Nat),
      ((writeBack files roots).get? i).map ParsedCssFile.filename
        = (files.get? i).map ParsedCssFile.filename := by
  intro files
  induction files with
  | nil =>
    intro roots i
    cases roots <;> rfl
  | cons f fs ih =>
    intro roots i
    cases roots with
    | nil => rfl
    | cons r rs =>
      cases i with
      | zero => rfl
      | succ n => exact ih rs n

theorem runMultiPasses_files {R : Type} (analyses : List TemplateAnalysis) :
    ∀ (passes : List (MultiFileOptimization R)) (p0 : Nat) (sm : StyleMapping)
      (files : List (ParsedCssFile R)) (cache : SelectorCache),
      (runMultiPasses analyses passes p0 sm files cache).2.1.length
        = files.length ∧
      ∀ i, ((runMultiPasses analyses passes p0 sm files cache).2.1.get? i).map
            ParsedCssFile.filename
          = (files.get? i).map ParsedCssFile.filename := by
  intro passes
  induction passes with
  | nil =>
    intro p0 sm files cache
    exact ⟨rfl, fun i => rfl⟩
  | cons pass rest ih =>
    intro p0 sm files cache
    obtain ⟨ihl, ihf⟩ := ih (p0 + 1) (pass sm files analyses cache).1
      (writeBack files (pass sm files analyses cache).2.1)
      (pass sm files analyses cache).2.2
    dsimp only [runMultiPasses]
    constructor
    · rw [ihl, writeBack_length]
    · intro i
      rw [ihf i, writeBack_filename]

theorem runPhase1_files {R E : Type} (o : Optimizer R)
    (parse : String → Except E R) :
    ∀ (srcs : List (CssFile R)) (i0 : Nat) (sm : StyleMapping)
      (cache : SelectorCache)
      (r : StyleMapping × List (ParsedCssFile R) × SelectorCache × List Event),
      o.runPhase1 parse srcs i0 sm cache = Except.ok r →
      r.2.1.length = srcs.length ∧
      ∀ i, (r.2.1.get? i).map ParsedCssFile.filename
          = (srcs.get? i).map CssFile.filename := by
  intro srcs
  induction srcs with
  | nil =>
    intro i0 sm cache r h
    simp only [Optimizer.runPhase1] at h
    injection h with hinj
    subst hinj
    exact ⟨rfl, fun i => rfl⟩
  | cons g rest ih =>
    intro i0 sm cache r h
    cases hs : o.optimizeSingleFile parse sm g cache i0 with
    | error e =>
      rw [runPhase1_cons_error o parse g rest i0 sm cache e hs] at h
      simp at h
    | ok r1 =>
      rw [runPhase1_cons_ok o parse g rest i0 sm cache r1 hs] at h
      cases hr : o.runPhase1 parse rest (i0 + 1) r1.1 r1.2.2.1 with
      | error e =>
        rw [hr] at h
        simp at h
      | ok r2 =>
        rw [hr] at h
        dsimp only at h
        injection h with hinj
        subst hinj
        obtain ⟨ihl, ihf⟩ := ih (i0 + 1) r1.1 r1.2.2.1 r2 hr
        dsimp only
        constructor
        · rw [List.length_cons, ihl]
          rfl
        · intro i
          cases i with
          | zero =>
            show some r1.2.1.filename = some g.filename
            rw [optimizeSingleFile_filename o parse sm g cache i0 r1 hs]
          | succ n => exact ihf n

/-- C8: the output content is the concatenation, in exactly the order the
sources were added, of the serialized per-file chunks: the optimizer built by
adding `srcs` in order holds them in that order, the processed file list has
one file per source in the same order (slot `i` keeps the filename of source
`i` — passes rewrite rule trees in place and never reorder the array), and
the output is their serializations joined by the chunk separator. -/
theorem claim8_output_in_source_order {R E : Type}
    (registry : OptimizationRegistry R) (opts : Options)
    (srcs : List (CssFile R)) (parse : String → Except E R)
    (toCss : R → String) (outputFilename : String)
    (p : OptimizationResult R × List Event)
    (hrun : ((Optimizer.new registry opts).addSources srcs).optimize parse
      toCss outputFilename = Except.ok p) :
    ((Optimizer.new registry opts).addSources srcs).sources = srcs ∧
    ∃ files2 : List (ParsedCssFile R),
      p.1.output.content
        = String.intercalate "\n" (files2.map fun f => toCss f.content) ∧
      files2.length = srcs.length ∧
      ∀ i, (files2.get? i).map ParsedCssFile.filename
          = (srcs.get? i).map CssFile.filename := by
  have hfields := addSources_eq srcs (Optimizer.new registry opts)
  have hsrcs : ((Optimizer.new registry opts).addSources srcs).sources = srcs := by
    rw [hfields, optimizer_new_sources]
    rfl
  refine ⟨hsrcs, ?_⟩
  cases hr : ((Optimizer.new registry opts).addSources srcs).runPhase1 parse
      ((Optimizer.new registry opts).addSources srcs).sources 0
      StyleMapping.new SelectorCache.new with
  | error e =>
    rw [optimize_of_phase1_error _ parse toCss outputFilename e hr] at hrun
    simp at hrun
  | ok r =>
    rw [optimize_of_phase1_ok _ parse toCss outputFilename r hr] at hrun
    injection hrun with hinj
    subst hinj
    obtain ⟨hl1, hf1⟩ := runPhase1_files _ parse _ 0 StyleMapping.new
      SelectorCache.new r hr
    obtain ⟨hl2, hf2⟩ := runMultiPasses_files
      ((Optimizer.new registry opts).addSources srcs).analyses
      ((Optimizer.new registry opts).addSources srcs).multiFileOptimizations
      0 r.1 r.2.1 r.2.2.1
    rw [hsrcs] at hl1 hf1
    refine ⟨(((Optimizer.new registry opts).addSources srcs).optimizeAllFiles
      r.1 r.2.1 r.2.2.1).2.1, rfl, ?_, ?_⟩
    · show (runMultiPasses _ _ 0 r.1 r.2.1 r.2.2.1).2.1.length = srcs.length
      rw [hl2, hl1]
    · intro i
      show ((runMultiPasses _ _ 0 r.1 r.2.1 r.2.2.1).2.1.get? i).map
          ParsedCssFile.filename = (srcs.get? i).map CssFile.filename
      rw [hf2 i, hf1 i]

/-- Witness for C8 at the concrete marked two-source run. -/
theorem claim8_witness :
    ((Optimizer.new regMark optsMarkOn).addSources [srcA, srcB]).sources
      = [srcA, srcB] ∧
    ∃ files2 : List (ParsedCssFile String),
      extractContent runMarkAB
        = String.intercalate "\n" (files2.map fun f => id f.content) ∧
      files2.length = 2 ∧
      ∀ i, (files2.get? i).map ParsedCssFile.filename
          = ([srcA, srcB].get? i).map CssFile.filename :=
  claim8_output_in_source_order regMark optsMarkOn [srcA, srcB] parseOkFn id
    "out.css" _ rfl

end Opticss
